import Mathlib

set_option autoImplicit false

/-!
Verification development for the channels repository: a shallow embedding of
the in-memory channel layer (`channels/layers.py`), the consumer dispatch
machinery (`channels/consumer.py`, `channels/utils.py`) and the websocket
demultiplexer (`channels/generic/multiplexer.py`), together with theorems
about the behaviour of those operations.

Python dicts are modelled as association lists (`List (String × α)`): lookup
returns the first binding, update replaces a binding in place (or appends a
fresh binding at the end, matching insertion-ordered dict semantics), and
erasure removes the binding for a key.  Time (`time.time()`) is modelled by an
explicit integer parameter `now`; message payloads are an arbitrary type.
-/

deriving instance DecidableEq for Except

namespace ChannelsSpec

/-! ### Association lists modelling Python dicts -/

def alookup {α : Type} : List (String × α) → String → Option α
  | [], _ => none
  | (k, v) :: rest, key => if k = key then some v else alookup rest key

def aupdate {α : Type} : List (String × α) → String → α → List (String × α)
  | [], key, v => [(key, v)]
  | (k, w) :: rest, key, v =>
    if k = key then (key, v) :: rest else (k, w) :: aupdate rest key v

def aerase {α : Type} : List (String × α) → String → List (String × α)
  | [], _ => []
  | (k, v) :: rest, key =>
    if k = key then aerase rest key else (k, v) :: aerase rest key

def asetdefault {α : Type} (l : List (String × α)) (key : String) (v : α) :
    List (String × α) :=
  if (alookup l key).isSome then l else l ++ [(key, v)]

/-! ### Name validation (`BaseChannelLayer`)

`channel_name_regex = ^[a-zA-Z\d\-_.]+(\![\d\w\-_.]*)?$` and
`group_name_regex = ^[a-zA-Z\d\-_.]+$`, both under `match_type_and_length`
(length < `MAX_NAME_LENGTH = 100`).  Both character classes denote ASCII
alphanumerics together with hyphen, underscore and period. -/

def nameChar (ch : Char) : Bool :=
  ch.isAlpha || ch.isDigit || ch == '-' || ch == '_' || ch == '.'

def match_type_and_length (name : String) : Bool :=
  name.data.length < 100

/-- Splits a character list at every `'!'` (the separator of the
process-specific channel syntax), like `str.split("!")`. -/
def splitBang : List Char → List (List Char)
  | [] => [[]]
  | ch :: rest =>
    match splitBang rest with
    | [] => [[]]
    | p :: ps => if ch = '!' then [] :: p :: ps else (ch :: p) :: ps

def channel_name_regex_match (name : String) : Bool :=
  match splitBang name.data with
  | [a] => !a.isEmpty && a.all nameChar
  | [a, b] => !a.isEmpty && a.all nameChar && b.all nameChar
  | _ => false

/-- `valid_channel_name`: `true` models a normal return; `false` models the
`TypeError` raised for an invalid name (including the `receive`-specific
restriction on process-specific channel names). -/
def valid_channel_name (recv : Bool) (name : String) : Bool :=
  match_type_and_length name && channel_name_regex_match name &&
    !(name.data.contains '!' && !(name.data.getLast? == some '!') && recv)

def valid_group_name (name : String) : Bool :=
  match_type_and_length name && !name.data.isEmpty && name.data.all nameChar

/-! ### The in-memory channel layer state -/

/-- One queue entry: `(expiry timestamp, message)` as enqueued by `send`. -/
abbrev Queue (Msg : Type) := List (Int × Msg)

/-- State and configuration of `InMemoryChannelLayer`.  `channel_capacity`
holds the compiled per-pattern capacity overrides as (predicate, limit)
pairs; `channels` maps channel name to its queue; `groups` maps group name
to a dict of member channel name → last-join timestamp. -/
structure InMemoryChannelLayer (Msg : Type) where
  expiry : Int
  group_expiry : Int
  capacity : Nat
  channel_capacity : List ((String → Bool) × Nat)
  channels : List (String × Queue Msg)
  groups : List (String × List (String × Int))

/-- `BaseChannelLayer.get_capacity`: first matching pattern in
`channel_capacity` wins, else the default `capacity`. -/
def get_capacity {Msg : Type} (L : InMemoryChannelLayer Msg) (channel : String) : Nat :=
  match L.channel_capacity.find? (fun pc => pc.1 channel) with
  | some pc => pc.2
  | none => L.capacity

/-- Errors surfaced by the layer operations: `typeError` models the
`TypeError`/`AssertionError` raised on name validation failure, and
`channelFull` models `ChannelFull(channel)`. -/
inductive LayerError where
  | typeError : LayerError
  | channelFull : String → LayerError
  deriving DecidableEq

/-- The queue currently stored for a channel (empty when the channel has no
entry in the dict). -/
def queue_of {Msg : Type} (L : InMemoryChannelLayer Msg) (channel : String) :
    Queue Msg :=
  (alookup L.channels channel).getD []

/-- `InMemoryChannelLayer.send`: validates the name, `setdefault`s the
queue, raises `ChannelFull` when `queue.qsize() >= self.capacity`, else
appends `(now + expiry, message)`.  The two message-shape assertions
(`isinstance(message, dict)` and the reserved `__asgi_channel__` key) are
not modelled because the payload type is opaque here; messages are assumed
to be plain dicts without the reserved key. -/
def send {Msg : Type} (now : Int) (channel : String) (m : Msg)
    (L : InMemoryChannelLayer Msg) :
    InMemoryChannelLayer Msg × Except LayerError Unit :=
  if !valid_channel_name false channel then (L, .error .typeError)
  else if L.capacity ≤ (queue_of L channel).length then
    ({ L with channels := asetdefault L.channels channel [] },
      .error (.channelFull channel))
  else
    ({ L with channels := (aupdate (asetdefault L.channels channel []) channel
        (queue_of L channel ++ [(now + L.expiry, m)])) }, .ok ())

/-- Channel-cleanup half of `_clean_expired`, acting on the channel dict:
for each channel, entries are popped from the front while the head's
timestamp is `< now` (a `dropWhile`), and a channel emptied by removals is
deleted from the dict. -/
def sweep_queues {Msg : Type} (now : Int) :
    List (String × Queue Msg) → List (String × Queue Msg)
  | [] => []
  | (c, q) :: rest =>
    let q' := q.dropWhile (fun e => decide (e.1 < now))
    if q'.length = q.length then (c, q) :: sweep_queues now rest
    else if q'.isEmpty then sweep_queues now rest
    else (c, q') :: sweep_queues now rest

/-- The channels that lose at least one entry during the channel-cleanup
half of `_clean_expired`; each such loss prompts `_remove_from_groups`. -/
def sweep_touched {Msg : Type} (now : Int) :
    List (String × Queue Msg) → List String
  | [] => []
  | (c, q) :: rest =>
    if (q.dropWhile (fun e => decide (e.1 < now))).length = q.length
    then sweep_touched now rest
    else c :: sweep_touched now rest

/-- `_remove_from_groups`: removes a channel from every group's member dict
(the group itself is never deleted here). -/
def remove_from_groups (channel : String)
    (groups : List (String × List (String × Int))) :
    List (String × List (String × Int)) :=
  groups.map (fun g => (g.1, aerase g.2 channel))

/-- Group-expiration half of `_clean_expired`: a member is deleted when its
join timestamp is truthy (nonzero) and `< int(now) - group_expiry`; empty
groups are left in place. -/
def prune_group_members (timeout : Int) (mems : List (String × Int)) :
    List (String × Int) :=
  mems.filter (fun p => !(decide (p.2 ≠ 0) && decide (p.2 < timeout)))

/-- `InMemoryChannelLayer._clean_expired`: global lazy sweep over all
channels, group discard for each channel that lost a message, then
group-expiry pruning of stale memberships. -/
def clean_expired {Msg : Type} (now : Int) (L : InMemoryChannelLayer Msg) :
    InMemoryChannelLayer Msg :=
  let groups1 :=
    (sweep_touched now L.channels).foldl (fun gs c => remove_from_groups c gs) L.groups
  let timeout := now - L.group_expiry
  let groups2 := groups1.map (fun g => (g.1, prune_group_members timeout g.2))
  { L with channels := sweep_queues now L.channels, groups := groups2 }

/-- `InMemoryChannelLayer.receive`: validate, run the global sweep, then pop
the head of this channel's queue (`.ok none` models blocking on an empty
queue); a queue emptied by the pop is deleted from the dict. -/
def receive {Msg : Type} (now : Int) (channel : String)
    (L : InMemoryChannelLayer Msg) :
    InMemoryChannelLayer Msg × Except LayerError (Option Msg) :=
  if !valid_channel_name false channel then (L, .error .typeError)
  else
    match queue_of (clean_expired now L) channel with
    | [] =>
      ({ clean_expired now L with channels :=
          (asetdefault (clean_expired now L).channels channel []) }, .ok none)
    | (_, m) :: rest =>
      ({ clean_expired now L with channels :=
          (if rest.isEmpty then
            aerase (asetdefault (clean_expired now L).channels channel []) channel
          else
            aupdate (asetdefault (clean_expired now L).channels channel []) channel
              rest) }, .ok (some m))

/-- `InMemoryChannelLayer.group_add`: validate both names, `setdefault` the
group dict and set the member's join timestamp to `now`. -/
def group_add {Msg : Type} (now : Int) (group channel : String)
    (L : InMemoryChannelLayer Msg) :
    InMemoryChannelLayer Msg × Except LayerError Unit :=
  if !valid_group_name group then (L, .error .typeError)
  else if !valid_channel_name false channel then (L, .error .typeError)
  else
    let mems := (alookup L.groups group).getD []
    ({ L with groups := aupdate L.groups group (aupdate mems channel now) }, .ok ())

/-- `InMemoryChannelLayer.group_discard`: validate, delete the member if
present, and delete the group when its member dict is empty afterwards. -/
def group_discard {Msg : Type} (group channel : String)
    (L : InMemoryChannelLayer Msg) :
    InMemoryChannelLayer Msg × Except LayerError Unit :=
  if !valid_channel_name false channel then (L, .error .typeError)
  else if !valid_group_name group then (L, .error .typeError)
  else
    match alookup L.groups group with
    | none => (L, .ok ())
    | some mems =>
      let mems' := aerase mems channel
      let groups' :=
        if mems'.isEmpty then aerase L.groups group else aupdate L.groups group mems'
      ({ L with groups := groups' }, .ok ())

/-- The fan-out loop of `group_send`: send to each member in turn, absorbing
`ChannelFull` per member; a validation error propagates and aborts. -/
def group_send_loop {Msg : Type} (now : Int) (m : Msg) :
    List String → InMemoryChannelLayer Msg →
      InMemoryChannelLayer Msg × Except LayerError Unit
  | [], L => (L, .ok ())
  | c :: rest, L =>
    let r := send now c m L
    match r.2 with
    | .ok _ => group_send_loop now m rest r.1
    | .error (.channelFull _) => group_send_loop now m rest r.1
    | .error .typeError => (r.1, .error .typeError)

/-- `InMemoryChannelLayer.group_send`: validate the group name, run the
global sweep, then best-effort send to every current member. -/
def group_send {Msg : Type} (now : Int) (group : String) (m : Msg)
    (L : InMemoryChannelLayer Msg) :
    InMemoryChannelLayer Msg × Except LayerError Unit :=
  if !valid_group_name group then (L, .error .typeError)
  else
    let L1 := clean_expired now L
    let members := ((alookup L1.groups group).getD []).map Prod.fst
    group_send_loop now m members L1

/-- Number of unexpired entries of a queue at time `now` (the spec's "live
entry count"; an entry is expired once its timestamp is `< now`). -/
def live_count {Msg : Type} (now : Int) (q : Queue Msg) : Nat :=
  (q.filter (fun e => decide (now ≤ e.1))).length

/-- `L` holds message `m` somewhere on channel `c`. -/
def channel_has_msg {Msg : Type} (L : InMemoryChannelLayer Msg) (c : String)
    (m : Msg) : Prop :=
  ∃ ts, (ts, m) ∈ queue_of L c

/-- `k` successive `send` calls of the same message to the same channel,
returning the state after the `k`-th call (a failed call keeps the state it
left behind). -/
def send_iterate {Msg : Type} (now : Int) (c : String) (m : Msg) :
    Nat → InMemoryChannelLayer Msg → InMemoryChannelLayer Msg
  | 0, L => L
  | k + 1, L => (send now c m (send_iterate now c m k L)).1

/-! ### Consumer dispatch (`channels/consumer.py`)

A message is represented by its `"type"` string; a consumer class by its
decorator-filled `_channels_message_handlers` registry and the set of method
names present on the instance (what `getattr` can find). -/

/-- `get_handler_name`: replaces `.` with `_` in the message type and rejects
a name with a leading underscore as malformed. -/
def get_handler_name (msg_type : String) : Except String String :=
  if (msg_type.data.map (fun ch => if ch = '.' then '_' else ch)).head?
      == some '_' then
    Except.error "Malformed type in message (leading underscore)"
  else
    Except.ok (String.mk (msg_type.data.map (fun ch => if ch = '.' then '_' else ch)))

structure AsyncConsumer where
  message_handlers : List (String × List String)
  attrs : List String
  deriving DecidableEq

/-- `AsyncConsumer._get_message_handlers`: looks up the registry by the raw
message type; only when the `CHANNELS_AUTO_HANDLER_BY_NAME` setting is on
does it additionally resolve the dot-to-underscore derived attribute name
(appended unless already present); raises when no handler was found.
The returned list is exactly what `dispatch` then invokes, in order. -/
def get_message_handlers (c : AsyncConsumer) (auto_handler_by_name : Bool)
    (msg_type : String) : Except String (List String) :=
  let handlers := (alookup c.message_handlers msg_type).getD []
  let step : Except String (List String) :=
    if auto_handler_by_name then
      match get_handler_name msg_type with
      | Except.error e => Except.error e
      | Except.ok name =>
        if c.attrs.contains name && !handlers.contains name then
          Except.ok (handlers ++ [name])
        else Except.ok handlers
    else Except.ok handlers
  match step with
  | Except.error e => Except.error e
  | Except.ok hs =>
    if hs.length < 1 then
      Except.error ("No handler for message type " ++ msg_type)
    else Except.ok hs

/-! ### Priority dispatch (`channels/utils.py`) -/

inductive TaskStatus where
  | running
  | finished
  deriving DecidableEq

structure PriorityTaskManager where
  current_task : Option TaskStatus
  close_message_received : Bool
  priority_message_types : List String
  deriving DecidableEq

/-- The observable scheduling events of `PriorityTaskManager.handle_message`
in program order: cancelling the in-flight dispatch task, awaiting it while
absorbing its `CancelledError`, invoking `dispatch` on a message directly,
creating the dispatch task for a non-priority message, and awaiting the
current task. -/
inductive DispatchEvent where
  | cancelCurrent
  | awaitCurrent
  | dispatchMsg (msg_type : String)
  | startTask (msg_type : String)
  | awaitTask
  deriving DecidableEq

/-- `PriorityTaskManager.handle_message`, instrumented with the ordered list
of events its sequential body performs.  `await`s are modelled as running to
completion, so the current task is `finished` in the post-state. -/
def handle_message (st : PriorityTaskManager) (msg_type : String) :
    PriorityTaskManager × List DispatchEvent :=
  if st.close_message_received then (st, [])
  else if st.priority_message_types.contains msg_type then
    let st1 := { st with close_message_received := true }
    match st.current_task with
    | some TaskStatus.running =>
      ({ st1 with current_task := some TaskStatus.finished },
        [DispatchEvent.cancelCurrent, DispatchEvent.awaitCurrent,
          DispatchEvent.dispatchMsg msg_type])
    | _ => (st1, [DispatchEvent.dispatchMsg msg_type])
  else
    match st.current_task with
    | some TaskStatus.running =>
      ({ st with current_task := some TaskStatus.finished },
        [DispatchEvent.awaitTask])
    | _ =>
      ({ st with current_task := some TaskStatus.finished },
        [DispatchEvent.startTask msg_type, DispatchEvent.awaitTask])

/-! ### Websocket demultiplexer (`channels/generic/multiplexer.py`) -/

/-- Supervisor state relevant to close coordination: the set of accepting
streams, the set of streams with a live upstream queue, the `disconnecting`
flag set on `websocket_disconnect`, and the `sent_close` latch. -/
structure Demultiplexer where
  accepted_upstream_stream : List String
  stream_upstream_queues : List String
  disconnecting : Bool
  sent_close : Bool
  deriving DecidableEq

/-- Outward frames to the peer that matter here: the close frame with its
optional code (`super().close(code)`). -/
inductive MuxEvent where
  | closeSent (code : Option Int)
  deriving DecidableEq

/-- `AsyncJsonWebsocketDemultiplexer.close`: returns without sending when a
stream is still accepting, the close was already sent, or the connection is
disconnecting — unless `force` is set, which bypasses the whole guard. -/
def mux_close (code : Option Int) (force : Bool) (st : Demultiplexer) :
    Demultiplexer × List MuxEvent :=
  if (!st.accepted_upstream_stream.isEmpty || st.sent_close || st.disconnecting)
      && !force then (st, [])
  else ({ st with sent_close := true }, [MuxEvent.closeSent code])

/-- `AsyncJsonWebsocketDemultiplexer.websocket_close`: a child's close event
removes that stream from the accepting set (`set.remove`; `none` models the
`KeyError` on an absent stream) and then runs the guarded close. -/
def websocket_close (code : Option Int) (stream : String) (st : Demultiplexer) :
    Option (Demultiplexer × List MuxEvent) :=
  if st.accepted_upstream_stream.contains stream then
    some (mux_close code false
      { st with
        accepted_upstream_stream := st.accepted_upstream_stream.erase stream })
  else none

/-- The state effect of `websocket_disconnect`: the `disconnecting` flag is
set before the disconnect is broadcast and the children are awaited. -/
def websocket_disconnect (st : Demultiplexer) : Demultiplexer :=
  { st with disconnecting := true }

/-- How a child application task finished, as observed by `_monitor_task`:
the clean-termination sentinel `StopConsumer`, cancellation, an arbitrary
exception, or a plain return. -/
inductive ChildExit where
  | stopConsumer
  | cancelled
  | exc (e : String)
  | normal
  deriving DecidableEq

/-- `AsyncJsonWebsocketDemultiplexer._monitor_task` after the child task
finished: per-branch stream cleanup, guarded or forced close, and the
exception re-raised to the caller (`none` in the last component means no
re-raise; an outer `none` models the `KeyError` from deleting a queue that
is already gone). -/
def monitor_task (stream : String) (exit_kind : ChildExit) (st : Demultiplexer) :
    Option (Demultiplexer × List MuxEvent × Option String) :=
  match exit_kind with
  | ChildExit.stopConsumer =>
    if st.stream_upstream_queues.contains stream then
      let st1 := { st with
        accepted_upstream_stream := st.accepted_upstream_stream.erase stream,
        stream_upstream_queues := st.stream_upstream_queues.erase stream }
      let r := mux_close none false st1
      some (r.1, r.2, none)
    else some (st, [], none)
  | ChildExit.cancelled =>
    if st.stream_upstream_queues.contains stream then
      let st1 := { st with
        accepted_upstream_stream := st.accepted_upstream_stream.erase stream,
        stream_upstream_queues := st.stream_upstream_queues.erase stream }
      let r := mux_close none false st1
      some (r.1, r.2, none)
    else none
  | ChildExit.exc e =>
    if !st.disconnecting then
      let r := mux_close (some 1011) true st
      some (r.1, r.2, some e)
    else some (st, [], some e)
  | ChildExit.normal =>
    if st.stream_upstream_queues.contains stream then
      let st1 := { st with
        accepted_upstream_stream := st.accepted_upstream_stream.erase stream,
        stream_upstream_queues := st.stream_upstream_queues.erase stream }
      let r := mux_close none false st1
      some (r.1, r.2, none)
    else none

/-- Example state for the group fan-out scenario: from an empty layer,
`group_add("g","c1")` at time 1, `group_add("g","c2")` at time 2, then
`group_discard("g","c1")`. -/
def scenario_add_add_discard : InMemoryChannelLayer Nat :=
  (group_discard "g" "c1" (group_add 2 "g" "c2" (group_add 1 "g" "c1"
    { expiry := 60, group_expiry := 86400, capacity := 100,
      channel_capacity := [], channels := [], groups := [] }).1).1).1

/-- Example state in which group `"g"`'s member `"f"` sits at capacity
(one stored entry, capacity 1) while member `"c2"` is free. -/
def scenario_full_member : InMemoryChannelLayer Nat :=
  { expiry := 60, group_expiry := 86400, capacity := 1,
    channel_capacity := [], channels := [("f", [(100, 0)])],
    groups := [("g", [("f", 10), ("c2", 10)])] }

/-! ### Association-list lemmas -/

theorem alookup_aupdate_self {α : Type} (l : List (String × α)) (k : String) (v : α) :
    alookup (aupdate l k v) k = some v := by
  induction l with
  | nil => simp [aupdate, alookup]
  | cons hd tl ih =>
    obtain ⟨k', w⟩ := hd
    by_cases h : k' = k
    · simp [aupdate, h, alookup]
    · simp [aupdate, h, alookup, ih]

theorem alookup_aupdate_ne {α : Type} (l : List (String × α)) (k c : String) (v : α)
    (hne : c ≠ k) : alookup (aupdate l k v) c = alookup l c := by
  have hkc : k ≠ c := fun h => hne h.symm
  induction l with
  | nil => simp [aupdate, alookup, hkc]
  | cons hd tl ih =>
    obtain ⟨k', w⟩ := hd
    by_cases h : k' = k
    · have hk'c : k' ≠ c := fun hc => hne (hc.symm.trans h)
      rw [aupdate, if_pos h, alookup, if_neg hkc, alookup, if_neg hk'c]
    · by_cases h2 : k' = c
      · rw [aupdate, if_neg h, alookup, if_pos h2, alookup, if_pos h2]
      · rw [aupdate, if_neg h, alookup, if_neg h2, alookup, if_neg h2]
        exact ih

theorem alookup_aerase_self {α : Type} (l : List (String × α)) (k : String) :
    alookup (aerase l k) k = none := by
  induction l with
  | nil => simp [aerase, alookup]
  | cons hd tl ih =>
    obtain ⟨k', w⟩ := hd
    by_cases h : k' = k
    · simpa [aerase, h] using ih
    · simpa [aerase, h, alookup] using ih

theorem alookup_aerase_ne {α : Type} (l : List (String × α)) (k c : String)
    (hne : c ≠ k) : alookup (aerase l k) c = alookup l c := by
  induction l with
  | nil => simp [aerase, alookup]
  | cons hd tl ih =>
    obtain ⟨k', w⟩ := hd
    by_cases h : k' = k
    · have hk'c : k' ≠ c := fun hc => hne (hc.symm.trans h)
      rw [aerase, if_pos h, alookup, if_neg hk'c]
      exact ih
    · by_cases h2 : k' = c
      · rw [aerase, if_neg h, alookup, if_pos h2, alookup, if_pos h2]
      · rw [aerase, if_neg h, alookup, if_neg h2, alookup, if_neg h2]
        exact ih

theorem alookup_aerase_none {α : Type} (l : List (String × α)) (k c : String)
    (h : alookup l c = none) : alookup (aerase l k) c = none := by
  induction l with
  | nil => simp [aerase, alookup]
  | cons hd tl ih =>
    obtain ⟨k', w⟩ := hd
    by_cases h2 : k' = c
    · rw [alookup, if_pos h2] at h
      exact absurd h (by simp)
    · rw [alookup, if_neg h2] at h
      by_cases h3 : k' = k
      · rw [aerase, if_pos h3]
        exact ih h
      · rw [aerase, if_neg h3, alookup, if_neg h2]
        exact ih h

theorem alookup_filter_none {α : Type} (l : List (String × α)) (c : String)
    (p : String × α → Bool) (h : alookup l c = none) :
    alookup (l.filter p) c = none := by
  induction l with
  | nil => simp [alookup]
  | cons hd tl ih =>
    obtain ⟨k', w⟩ := hd
    by_cases h2 : k' = c
    · rw [alookup, if_pos h2] at h
      exact absurd h (by simp)
    · rw [alookup, if_neg h2] at h
      rw [List.filter_cons]
      by_cases h3 : p (k', w) = true
      · rw [if_pos h3, alookup, if_neg h2]
        exact ih h
      · rw [if_neg h3]
        exact ih h

theorem alookup_append_single_ne {α : Type} (l : List (String × α)) (k c : String)
    (v : α) (hne : c ≠ k) : alookup (l ++ [(k, v)]) c = alookup l c := by
  have hkc : k ≠ c := fun h => hne h.symm
  induction l with
  | nil => simp [alookup, hkc]
  | cons hd tl ih =>
    obtain ⟨k', w⟩ := hd
    by_cases h : k' = c <;> simp [alookup, h, ih]

theorem alookup_asetdefault_ne {α : Type} (l : List (String × α)) (k c : String)
    (v : α) (hne : c ≠ k) : alookup (asetdefault l k v) c = alookup l c := by
  unfold asetdefault
  by_cases h : (alookup l k).isSome
  · simp [h]
  · simp only [h, if_false]
    exact alookup_append_single_ne l k c v hne

theorem alookup_map_value {α β : Type} (l : List (String × α)) (f : α → β)
    (c : String) :
    alookup (l.map (fun p => (p.1, f p.2))) c = (alookup l c).map f := by
  induction l with
  | nil => simp [alookup]
  | cons hd tl ih =>
    obtain ⟨k', w⟩ := hd
    by_cases h : k' = c <;> simp [alookup, h, ih]

/-! ### List and sweep lemmas -/

theorem alookup_eq_none_of_not_mem_keys {α : Type} (l : List (String × α))
    (c : String) (h : c ∉ l.map Prod.fst) : alookup l c = none := by
  induction l with
  | nil => rfl
  | cons hd tl ih =>
    obtain ⟨k', w⟩ := hd
    simp only [List.map_cons, List.mem_cons] at h
    push_neg at h
    rw [alookup, if_neg (fun hk => h.1 hk.symm)]
    exact ih h.2

theorem mem_of_mem_dropWhile {α : Type} (p : α → Bool) (l : List α) (x : α)
    (h : x ∈ l.dropWhile p) : x ∈ l :=
  (List.dropWhile_sublist p).subset h

theorem head_dropWhile_false {α : Type} (p : α → Bool) (l : List α) :
    ∀ (x : α) (t : List α), l.dropWhile p = x :: t → p x = false := by
  induction l with
  | nil => intro x t h; simp [List.dropWhile] at h
  | cons a l ih =>
    intro x t h
    rw [List.dropWhile_cons] at h
    by_cases hpa : p a = true
    · rw [if_pos hpa] at h
      exact ih x t h
    · rw [if_neg hpa] at h
      injection h with h1 _
      rw [← h1]
      exact Bool.eq_false_iff.mpr hpa

theorem pairwise_dropWhile {α : Type} (p : α → Bool) (R : α → α → Prop)
    (l : List α) (h : l.Pairwise R) : (l.dropWhile p).Pairwise R :=
  h.sublist (List.dropWhile_sublist p)

theorem alookup_sweep_queues_none {Msg : Type} (now : Int)
    (chans : List (String × Queue Msg)) (c : String)
    (h : alookup chans c = none) : alookup (sweep_queues now chans) c = none := by
  induction chans with
  | nil => rfl
  | cons hd rest ih =>
    obtain ⟨c0, q0⟩ := hd
    by_cases hc : c0 = c
    · rw [alookup, if_pos hc] at h
      exact absurd h (by simp)
    · rw [alookup, if_neg hc] at h
      rw [sweep_queues]
      by_cases h1 : ((q0.dropWhile (fun e => decide (e.1 < now))).length = q0.length)
      · rw [if_pos h1, alookup, if_neg hc]
        exact ih h
      · rw [if_neg h1]
        by_cases h2 : (q0.dropWhile (fun e => decide (e.1 < now))).isEmpty
        · rw [if_pos h2]
          exact ih h
        · rw [if_neg h2, alookup, if_neg hc]
          exact ih h

theorem alookup_sweep_queues_some {Msg : Type} (now : Int)
    (chans : List (String × Queue Msg)) (c : String) (q2 : Queue Msg)
    (hnodup : (chans.map Prod.fst).Nodup)
    (h : alookup (sweep_queues now chans) c = some q2) :
    ∃ q, alookup chans c = some q ∧
      q2 = q.dropWhile (fun e => decide (e.1 < now)) := by
  induction chans with
  | nil => exact absurd h (by simp [sweep_queues, alookup])
  | cons hd rest ih =>
    obtain ⟨c0, q0⟩ := hd
    rw [List.map_cons, List.nodup_cons] at hnodup
    rw [sweep_queues] at h
    by_cases h1 : ((q0.dropWhile (fun e => decide (e.1 < now))).length = q0.length)
    · rw [if_pos h1] at h
      by_cases hc : c0 = c
      · rw [alookup, if_pos hc] at h
        refine ⟨q0, by rw [alookup, if_pos hc], ?_⟩
        have heq : q0.dropWhile (fun e => decide (e.1 < now)) = q0 :=
          (List.dropWhile_sublist _).eq_of_length_le (le_of_eq h1.symm)
        rw [heq]
        exact (Option.some_inj.mp h).symm
      · rw [alookup, if_neg hc] at h
        obtain ⟨q, hq, hq2⟩ := ih hnodup.2 h
        exact ⟨q, by rw [alookup, if_neg hc]; exact hq, hq2⟩
    · rw [if_neg h1] at h
      by_cases h2 : (q0.dropWhile (fun e => decide (e.1 < now))).isEmpty
      · rw [if_pos h2] at h
        by_cases hc : c0 = c
        · subst hc
          have hnone : alookup rest c0 = none :=
            alookup_eq_none_of_not_mem_keys rest c0 (by
              intro hmem
              exact hnodup.1 (by simpa using hmem))
          rw [alookup_sweep_queues_none now rest c0 hnone] at h
          exact absurd h (by simp)
        · obtain ⟨q, hq, hq2⟩ := ih hnodup.2 h
          exact ⟨q, by rw [alookup, if_neg hc]; exact hq, hq2⟩
      · rw [if_neg h2] at h
        by_cases hc : c0 = c
        · rw [alookup, if_pos hc] at h
          exact ⟨q0, by rw [alookup, if_pos hc], (Option.some_inj.mp h).symm⟩
        · rw [alookup, if_neg hc] at h
          obtain ⟨q, hq, hq2⟩ := ih hnodup.2 h
          exact ⟨q, by rw [alookup, if_neg hc]; exact hq, hq2⟩

theorem mem_sweep_touched_of_head_expired {Msg : Type} (now : Int)
    (chans : List (String × Queue Msg)) (c : String) (hd : Int × Msg)
    (t : Queue Msg) (hq : alookup chans c = some (hd :: t)) (hexp : hd.1 < now) :
    c ∈ sweep_touched now chans := by
  induction chans with
  | nil => exact absurd hq (by simp [alookup])
  | cons hd0 rest ih =>
    obtain ⟨c0, q0⟩ := hd0
    rw [sweep_touched]
    by_cases hc : c0 = c
    · rw [alookup, if_pos hc] at hq
      have hq0 : q0 = hd :: t := Option.some_inj.mp hq
      have hlen : ((q0.dropWhile (fun e => decide (e.1 < now))).length = q0.length)
          → False := by
        intro hlen
        rw [hq0, List.dropWhile_cons, if_pos (by simpa using hexp),
          List.length_cons] at hlen
        have := (List.dropWhile_sublist
          (fun e : Int × Msg => decide (e.1 < now)) (l := t)).length_le
        omega
      rw [if_neg hlen]
      exact hc ▸ List.mem_cons_self c0 _
    · rw [alookup, if_neg hc] at hq
      by_cases h1 : ((q0.dropWhile (fun e => decide (e.1 < now))).length = q0.length)
      · rw [if_pos h1]
        exact ih hq
      · rw [if_neg h1]
        exact List.mem_cons_of_mem c0 (ih hq)

theorem alookup_remove_from_groups (ch g : String)
    (gs : List (String × List (String × Int))) :
    alookup (remove_from_groups ch gs) g
      = (alookup gs g).map (fun ms => aerase ms ch) :=
  alookup_map_value gs (fun ms => aerase ms ch) g

theorem alookup_foldl_remove_from_groups (touched : List String)
    (gs : List (String × List (String × Int))) (g : String) :
    alookup (touched.foldl (fun acc ch => remove_from_groups ch acc) gs) g
      = (alookup gs g).map
          (fun ms => touched.foldl (fun acc ch => aerase acc ch) ms) := by
  induction touched generalizing gs with
  | nil =>
    cases h : alookup gs g <;> simp [h]
  | cons c0 rest ih =>
    rw [List.foldl_cons, ih, alookup_remove_from_groups]
    cases h : alookup gs g <;> simp [h]

theorem alookup_foldl_aerase_none_preserved (touched : List String)
    (ms : List (String × Int)) (c : String) (h : alookup ms c = none) :
    alookup (touched.foldl (fun acc ch => aerase acc ch) ms) c = none := by
  induction touched generalizing ms with
  | nil => exact h
  | cons c0 rest ih => exact ih _ (alookup_aerase_none ms c0 c h)

theorem alookup_foldl_aerase_none (touched : List String)
    (ms : List (String × Int)) (c : String) (h : c ∈ touched) :
    alookup (touched.foldl (fun acc ch => aerase acc ch) ms) c = none := by
  induction touched generalizing ms with
  | nil => cases h
  | cons c0 rest ih =>
    rw [List.foldl_cons]
    by_cases hc : c ∈ rest
    · exact ih _ hc
    · have hcc : c = c0 := by
        cases List.mem_cons.mp h with
        | inl h1 => exact h1
        | inr h2 => exact absurd h2 hc
      subst hcc
      exact alookup_foldl_aerase_none_preserved rest _ c (alookup_aerase_self ms c)

theorem alookup_clean_expired_groups {Msg : Type} (now : Int)
    (L : InMemoryChannelLayer Msg) (g : String) :
    alookup (clean_expired now L).groups g
      = (alookup L.groups g).map (fun ms =>
          prune_group_members (now - L.group_expiry)
            ((sweep_touched now L.channels).foldl (fun acc ch => aerase acc ch) ms)) := by
  show alookup (((sweep_touched now L.channels).foldl
      (fun gs c => remove_from_groups c gs) L.groups).map
        (fun g => (g.1, prune_group_members (now - L.group_expiry) g.2))) g = _
  rw [alookup_map_value, alookup_foldl_remove_from_groups]
  cases h : alookup L.groups g <;> simp [h]

/-! ### Claims C1 and C3: send capacity behaviour -/

theorem send_full {Msg : Type} (now : Int) (c : String) (m : Msg)
    (L : InMemoryChannelLayer Msg) (hvalid : valid_channel_name false c = true)
    (hfull : L.capacity ≤ (queue_of L c).length) :
    send now c m L = ({ L with channels := asetdefault L.channels c [] },
      Except.error (LayerError.channelFull c)) := by
  simp only [send]
  rw [if_neg (by rw [hvalid]; simp), if_pos hfull]

theorem send_ok {Msg : Type} (now : Int) (c : String) (m : Msg)
    (L : InMemoryChannelLayer Msg) (hvalid : valid_channel_name false c = true)
    (hlt : (queue_of L c).length < L.capacity) :
    send now c m L
      = ({ L with channels := (aupdate (asetdefault L.channels c []) c
            (queue_of L c ++ [(now + L.expiry, m)])) }, Except.ok ()) := by
  simp only [send]
  rw [if_neg (by rw [hvalid]; simp), if_neg (not_le.mpr hlt)]

theorem queue_of_send_ok {Msg : Type} (now : Int) (c : String) (m : Msg)
    (L : InMemoryChannelLayer Msg) (hvalid : valid_channel_name false c = true)
    (hlt : (queue_of L c).length < L.capacity) :
    queue_of (send now c m L).1 c = queue_of L c ++ [(now + L.expiry, m)] := by
  rw [send_ok now c m L hvalid hlt]
  show (alookup (aupdate (asetdefault L.channels c []) c
    (queue_of L c ++ [(now + L.expiry, m)])) c).getD [] = _
  rw [alookup_aupdate_self]
  rfl

/-- C1 counterexample: a channel whose live (unexpired) entry count equals
its resolved per-pattern capacity (override 1 for `"c"`, default 2) is
nevertheless accepted by `send` — so `send` does not fail exactly when the
live count reaches the capacity resolved through the override list. -/
theorem send_capacity_override_counterexample :
    let L : InMemoryChannelLayer Nat :=
      { expiry := 60, group_expiry := 86400, capacity := 2,
        channel_capacity := [(fun s => s == "c", 1)],
        channels := [("c", [(100, 0)])], groups := [] }
    live_count 50 (queue_of L "c") = get_capacity L "c"
      ∧ (send 50 "c" 7 L).2 = Except.ok () :=
  ⟨rfl, rfl⟩

/-- C1 (amended): `send` fails with `ChannelFull` exactly when the total
number of stored entries (expired ones included) of the channel's queue is
at least the layer's default `capacity`; below that it appends
`(now + expiry, message)`; and the per-pattern `channel_capacity` override
list is never consulted — `send` returns the same result under any
override configuration. -/
theorem send_channelFull_iff_default_capacity {Msg : Type}
    (L : InMemoryChannelLayer Msg) (now : Int) (c : String) (m : Msg)
    (hvalid : valid_channel_name false c = true) :
    ((send now c m L).2 = Except.error (LayerError.channelFull c)
      ↔ L.capacity ≤ (queue_of L c).length)
    ∧ ((queue_of L c).length < L.capacity →
        queue_of (send now c m L).1 c = queue_of L c ++ [(now + L.expiry, m)]
          ∧ (send now c m L).2 = Except.ok ())
    ∧ (∀ cc, (send now c m { L with channel_capacity := cc }).2
        = (send now c m L).2) := by
  refine ⟨?_, ?_, ?_⟩
  · by_cases hfull : L.capacity ≤ (queue_of L c).length
    · rw [send_full now c m L hvalid hfull]
      simp [hfull]
    · rw [send_ok now c m L hvalid (not_le.mp hfull)]
      simp [hfull]
  · intro hlt
    exact ⟨queue_of_send_ok now c m L hvalid hlt,
      by rw [send_ok now c m L hvalid hlt]⟩
  · intro cc
    by_cases hfull : L.capacity ≤ (queue_of L c).length
    · rw [send_full now c m L hvalid hfull,
        send_full now c m ({ L with channel_capacity := cc }) hvalid hfull]
    · rw [send_ok now c m L hvalid (not_le.mp hfull),
        send_ok now c m ({ L with channel_capacity := cc }) hvalid (not_le.mp hfull)]

theorem send_channelFull_iff_default_capacity_witness :
    (send 50 "c" (7 : Nat)
        { expiry := 60, group_expiry := 86400, capacity := 1,
          channel_capacity := [], channels := [("c", [(100, 0)])], groups := [] }).2
      = Except.error (LayerError.channelFull "c") :=
  (send_channelFull_iff_default_capacity _ 50 "c" 7 (by decide)).1.mpr (by decide)

/-- Helper for C3: after `k ≤ N` sends into an initially empty channel of a
layer with default capacity `N`, the queue holds exactly the `k` enqueued
entries and the configuration is unchanged. -/
theorem send_iterate_queue {Msg : Type} (now : Int) (c : String) (m : Msg)
    (L0 : InMemoryChannelLayer Msg) (N : Nat)
    (hvalid : valid_channel_name false c = true)
    (hcap : L0.capacity = N) (hq0 : queue_of L0 c = []) :
    ∀ k, k ≤ N →
      queue_of (send_iterate now c m k L0) c
          = List.replicate k (now + L0.expiry, m)
        ∧ (send_iterate now c m k L0).capacity = N
        ∧ (send_iterate now c m k L0).expiry = L0.expiry := by
  intro k
  induction k with
  | zero => exact fun _ => ⟨hq0, hcap, rfl⟩
  | succ k ih =>
    intro hk
    obtain ⟨hqk, hcapk, hexpk⟩ := ih (Nat.le_of_succ_le hk)
    have hlt : (queue_of (send_iterate now c m k L0) c).length
        < (send_iterate now c m k L0).capacity := by
      rw [hqk, hcapk, List.length_replicate]
      omega
    refine ⟨?_, ?_, ?_⟩
    · show queue_of (send now c m (send_iterate now c m k L0)).1 c = _
      rw [queue_of_send_ok now c m _ hvalid hlt, hqk, hexpk,
        ← List.replicate_succ']
    · show (send now c m (send_iterate now c m k L0)).1.capacity = N
      rw [send_ok now c m _ hvalid hlt]
      exact hcapk
    · show (send now c m (send_iterate now c m k L0)).1.expiry = L0.expiry
      rw [send_ok now c m _ hvalid hlt]
      exact hexpk

/-- C3: on a channel configured with (default) capacity `N`, starting
empty, with nothing received and nothing expiring (`send` never sweeps),
each of the first `N` sends succeeds and exactly the `(N+1)`-th send (index
`N`, counting calls from 1) raises `ChannelFull`. -/
theorem send_sequence_channelFull_at_capacity {Msg : Type}
    (L0 : InMemoryChannelLayer Msg) (now : Int) (c : String) (m : Msg) (N : Nat)
    (hvalid : valid_channel_name false c = true)
    (hcap : L0.capacity = N) (hq0 : queue_of L0 c = []) :
    (∀ i, i < N → (send now c m (send_iterate now c m i L0)).2 = Except.ok ())
    ∧ (send now c m (send_iterate now c m N L0)).2
        = Except.error (LayerError.channelFull c) := by
  have hinv := send_iterate_queue now c m L0 N hvalid hcap hq0
  constructor
  · intro i hi
    obtain ⟨hq, hcap', _⟩ := hinv i (le_of_lt hi)
    rw [send_ok now c m _ hvalid (by rw [hq, hcap', List.length_replicate]; omega)]
  · obtain ⟨hq, hcap', _⟩ := hinv N (le_refl N)
    rw [send_full now c m _ hvalid (by rw [hq, hcap', List.length_replicate])]

theorem send_sequence_channelFull_at_capacity_witness :
    (send 0 "c" (5 : Nat) (send_iterate 0 "c" 5 1
        { expiry := 60, group_expiry := 86400, capacity := 1,
          channel_capacity := [], channels := [], groups := [] })).2
      = Except.error (LayerError.channelFull "c") :=
  (send_sequence_channelFull_at_capacity _ 0 "c" 5 1 (by decide) (by decide)
    (by decide)).2

/-! ### Claim C2: message expiry -/

/-- C2 counterexample: with expiry `E = 5`, a message sent at `T = 0` is
still returned by `receive` at time `T + E = 5` — the sweep removes an
entry only when its timestamp is strictly below the current time, so the
claim's "never returned at any time ≥ T+E" fails at exactly `T + E`. -/
theorem receive_at_exact_expiry_counterexample :
    (receive 5 "c" (send 0 "c" (42 : Nat)
        { expiry := 5, group_expiry := 86400, capacity := 100,
          channel_capacity := [], channels := [], groups := [] }).1).2
      = Except.ok (some 42) := by decide

/-- A channel's post-sweep queue is the `dropWhile` of its pre-sweep queue
(channel keys assumed dict-like, i.e. without duplicates). -/
theorem queue_of_clean_expired_some {Msg : Type} (now : Int)
    (L : InMemoryChannelLayer Msg) (c : String) (q2 : Queue Msg)
    (hnodup : (L.channels.map Prod.fst).Nodup)
    (h : alookup (clean_expired now L).channels c = some q2) :
    q2 = (queue_of L c).dropWhile (fun e => decide (e.1 < now)) := by
  obtain ⟨q, hq, hq2⟩ := alookup_sweep_queues_some now L.channels c q2 hnodup h
  have hqof : queue_of L c = q := by
    rw [queue_of, hq]
    rfl
  rw [hqof]
  exact hq2

/-- C2 (amended): a message sent at time `T` (stored with timestamp
`T + expiry`) is never returned by `receive` at any time strictly after
`T + expiry`; and the global sweep run by a `receive` on any other valid
channel `d` removes the expired message from `c`'s queue as well, given
dict-like channel keys and the nondecreasing queue timestamps that sends
under a monotone clock produce. -/
theorem receive_never_returns_expired {Msg : Type}
    (L : InMemoryChannelLayer Msg) (c d : String) (now T : Int) (m : Msg)
    (hnodup : (L.channels.map Prod.fst).Nodup)
    (hsorted : (queue_of L c).Pairwise (fun a b => a.1 ≤ b.1))
    (hts : ∀ ts, (ts, m) ∈ queue_of L c → ts = T + L.expiry)
    (hlate : T + L.expiry < now) :
    ((receive now c L).2 ≠ Except.ok (some m))
    ∧ (valid_channel_name false d = true → d ≠ c →
        ¬ channel_has_msg (receive now d L).1 c m) := by
  have main : ∀ ts, (ts, m) ∈ queue_of (clean_expired now L) c → False := by
    intro ts hmem
    cases halk : alookup (clean_expired now L).channels c with
    | none =>
      rw [queue_of, halk] at hmem
      exact absurd hmem (by simp)
    | some q2 =>
      rw [queue_of, halk] at hmem
      simp only [Option.getD_some] at hmem
      have hdrop := queue_of_clean_expired_some now L c q2 hnodup halk
      have hmem0 : (ts, m) ∈ queue_of L c :=
        mem_of_mem_dropWhile _ _ _ (hdrop ▸ hmem)
      have hlow : ts = T + L.expiry := hts ts hmem0
      cases hq2 : q2 with
      | nil => rw [hq2] at hmem; exact absurd hmem (by simp)
      | cons h0 t =>
        have hhead : now ≤ h0.1 := by
          have := head_dropWhile_false (fun e : Int × Msg => decide (e.1 < now))
            (queue_of L c) h0 t (by rw [← hdrop, hq2])
          have := of_decide_eq_false this
          omega
        have hpw : (h0 :: t).Pairwise
            (fun a b : Int × Msg => a.1 ≤ b.1) := by
          rw [← hq2, hdrop]
          exact pairwise_dropWhile _ _ _ hsorted
        rw [hq2] at hmem
        rcases List.mem_cons.mp hmem with heq | hmemt
        · have : h0.1 = ts := by rw [← heq]
          omega
        · have := (List.pairwise_cons.mp hpw).1 _ hmemt
          simp only at this
          omega
  constructor
  · intro hret
    by_cases hv : valid_channel_name false c = true
    · rw [receive, if_neg (by rw [hv]; simp)] at hret
      rcases hq : queue_of (clean_expired now L) c with _ | ⟨⟨ts0, m0⟩, rest⟩
      · rw [hq] at hret
        simp at hret
      · rw [hq] at hret
        simp only [Except.ok.injEq, Option.some.injEq] at hret
        subst hret
        exact main ts0 (by rw [hq]; exact List.mem_cons_self _ _)
    · have hv' : valid_channel_name false c = false := Bool.eq_false_iff.mpr hv
      rw [receive, if_pos (by rw [hv']; simp)] at hret
      exact absurd hret (by simp)
  · intro hvd hdc hmsg
    obtain ⟨ts, hmem⟩ := hmsg
    have hqeq : queue_of (receive now d L).1 c = queue_of (clean_expired now L) c := by
      rw [receive, if_neg (by rw [hvd]; simp)]
      rcases hq : queue_of (clean_expired now L) d with _ | ⟨⟨ts0, m0⟩, rest⟩
      · show (alookup (asetdefault (clean_expired now L).channels d []) c).getD [] = _
        rw [alookup_asetdefault_ne _ d c [] hdc.symm]
        rfl
      · by_cases hrest : rest.isEmpty
        · show (alookup (if rest.isEmpty then
              aerase (asetdefault (clean_expired now L).channels d []) d
            else aupdate (asetdefault (clean_expired now L).channels d []) d rest)
              c).getD [] = _
          rw [if_pos hrest, alookup_aerase_ne _ d c hdc.symm,
            alookup_asetdefault_ne _ d c [] hdc.symm]
          rfl
        · show (alookup (if rest.isEmpty then
              aerase (asetdefault (clean_expired now L).channels d []) d
            else aupdate (asetdefault (clean_expired now L).channels d []) d rest)
              c).getD [] = _
          rw [if_neg hrest, alookup_aupdate_ne _ d c rest hdc.symm,
            alookup_asetdefault_ne _ d c [] hdc.symm]
          rfl
    rw [hqeq] at hmem
    exact main ts hmem

theorem receive_never_returns_expired_witness :
    (receive 6 "c" ({ expiry := 5, group_expiry := 86400, capacity := 100,
                      channel_capacity := [], channels := [("c", [(5, 42)])],
                      groups := [] } : InMemoryChannelLayer Nat)).2
      ≠ Except.ok (some 42) :=
  (receive_never_returns_expired _ "c" "other" 6 0 42 (by decide) (by decide)
    (by intro ts h; simp [queue_of, alookup] at h; show ts = (0 : Int) + 5; omega) (by decide)).1

/-! ### Claims C9 and C10: group lifecycle under expiry -/

/-- C9 counterexample: a `group_send` (which runs the expiry sweep) on a
state whose only group has one stale member leaves that group behind with
zero members — the sweep's group-expiry pruning deletes members but never
the group itself, so an empty group remains after a channel-layer
operation. -/
theorem empty_group_after_sweep_counterexample :
    (group_send 100 "h" (0 : Nat)
        { expiry := 60, group_expiry := 5, capacity := 100,
          channel_capacity := [], channels := [],
          groups := [("g", [("c", 10)])] }).1.groups
      = [("g", [])] := by decide

/-- C9 (amended): a group is created on first `group_add` (with the member
stamped `now`), and `group_discard` deletes the group as soon as it is left
empty — after a discard the group is either gone or non-empty; but member
removal by the expiry sweep does not delete emptied groups, which can
therefore remain in the state with zero members. -/
theorem group_deleted_on_discard_only {Msg : Type}
    (L : InMemoryChannelLayer Msg) (now : Int) (g c : String)
    (hg : valid_group_name g = true)
    (hc : valid_channel_name false c = true) :
    (∀ mems', alookup (group_discard g c L).1.groups g = some mems' → mems' ≠ [])
    ∧ (∃ mems', alookup (group_add now g c L).1.groups g = some mems'
        ∧ alookup mems' c = some now)
    ∧ (alookup (clean_expired 100
        ({ expiry := 60, group_expiry := 5, capacity := 100,
           channel_capacity := [], channels := [],
           groups := [("g", [("c", 10)])] } : InMemoryChannelLayer Nat)).groups "g"
        = some []) := by
  refine ⟨?_, ?_, by decide⟩
  · intro mems' hlook
    rw [group_discard, if_neg (by rw [hc]; simp), if_neg (by rw [hg]; simp)] at hlook
    cases hmem : alookup L.groups g with
    | none =>
      rw [hmem] at hlook
      simp only at hlook
      rw [hmem] at hlook
      exact absurd hlook (by simp)
    | some mems =>
      rw [hmem] at hlook
      simp only at hlook
      by_cases hemp : (aerase mems c).isEmpty
      · rw [if_pos hemp] at hlook
        rw [alookup_aerase_self] at hlook
        exact absurd hlook (by simp)
      · rw [if_neg hemp] at hlook
        rw [alookup_aupdate_self] at hlook
        intro hnil
        rw [← Option.some_inj.mp hlook] at hnil
        rw [hnil] at hemp
        simp at hemp
  · refine ⟨aupdate ((alookup L.groups g).getD []) c now, ?_, ?_⟩
    · rw [group_add, if_neg (by rw [hg]; simp), if_neg (by rw [hc]; simp)]
      exact alookup_aupdate_self _ _ _
    · exact alookup_aupdate_self _ _ _

theorem group_deleted_on_discard_only_witness :
    ∃ mems', alookup (group_add 7 "g" "c"
        ({ expiry := 60, group_expiry := 86400, capacity := 100,
           channel_capacity := [], channels := [],
           groups := [] } : InMemoryChannelLayer Nat)).1.groups "g" = some mems'
      ∧ alookup mems' "c" = some 7 :=
  (group_deleted_on_discard_only _ 7 "g" "c" (by decide) (by decide)).2.1

/-- C10: during the lazy expiry sweep, a channel whose queue loses an
expired head entry is discarded from every group it belongs to, even when
its membership timestamp is fresh (within `group_expiry`): after
`_clean_expired` the group still exists but no longer lists the channel. -/
theorem expired_message_discards_group_membership {Msg : Type}
    (L : InMemoryChannelLayer Msg) (now : Int) (c g : String)
    (hd : Int × Msg) (t : Queue Msg) (mems : List (String × Int)) (ts : Int)
    (hq : alookup L.channels c = some (hd :: t))
    (hexp : hd.1 < now)
    (hgroup : alookup L.groups g = some mems)
    (_hmember : alookup mems c = some ts)
    (_hfresh : now - L.group_expiry ≤ ts) :
    ∃ mems', alookup (clean_expired now L).groups g = some mems'
      ∧ alookup mems' c = none := by
  have htouch : c ∈ sweep_touched now L.channels :=
    mem_sweep_touched_of_head_expired now L.channels c hd t hq hexp
  rw [alookup_clean_expired_groups, hgroup]
  refine ⟨_, rfl, ?_⟩
  exact alookup_filter_none _ c _
    (alookup_foldl_aerase_none (sweep_touched now L.channels) mems c htouch)

theorem expired_message_discards_group_membership_witness :
    ∃ mems', alookup (clean_expired 20
        ({ expiry := 60, group_expiry := 86400, capacity := 100,
           channel_capacity := [], channels := [("c", [(10, 0)])],
           groups := [("g", [("c", 19)])] } : InMemoryChannelLayer Nat)).groups "g"
        = some mems'
      ∧ alookup mems' "c" = none :=
  expired_message_discards_group_membership _ 20 "c" "g" (10, 0) [] [("c", 19)] 19
    (by decide) (by decide) (by decide) (by decide) (by decide)

/-! ### Claim C4: group fan-out -/

theorem send_result_ok_or_full {Msg : Type} (now : Int) (c : String) (m : Msg)
    (L : InMemoryChannelLayer Msg) (hv : valid_channel_name false c = true) :
    (send now c m L).2 = Except.ok ()
      ∨ (send now c m L).2 = Except.error (LayerError.channelFull c) := by
  by_cases hfull : L.capacity ≤ (queue_of L c).length
  · right
    rw [send_full now c m L hv hfull]
  · left
    rw [send_ok now c m L hv (not_le.mp hfull)]

theorem group_send_loop_ok {Msg : Type} (now : Int) (m : Msg)
    (members : List String) :
    ∀ L : InMemoryChannelLayer Msg,
      (∀ ch ∈ members, valid_channel_name false ch = true) →
      (group_send_loop now m members L).2 = Except.ok () := by
  induction members with
  | nil => intro L _; rfl
  | cons c0 rest ih =>
    intro L hv
    rw [group_send_loop]
    rcases send_result_ok_or_full now c0 m L (hv c0 (List.mem_cons_self c0 rest))
      with h | h
    · rw [h]
      exact ih _ (fun ch hch => hv ch (List.mem_cons_of_mem c0 hch))
    · rw [h]
      exact ih _ (fun ch hch => hv ch (List.mem_cons_of_mem c0 hch))

theorem alookup_append_single_self {α : Type} (l : List (String × α)) (k : String)
    (v : α) (h : alookup l k = none) : alookup (l ++ [(k, v)]) k = some v := by
  induction l with
  | nil => simp [alookup]
  | cons hd tl ih =>
    obtain ⟨k', w⟩ := hd
    by_cases hk : k' = k
    · rw [alookup, if_pos hk] at h
      exact absurd h (by simp)
    · rw [alookup, if_neg hk] at h
      rw [List.cons_append, alookup, if_neg hk]
      exact ih h

theorem queue_of_asetdefault_self {Msg : Type} (L : InMemoryChannelLayer Msg)
    (c : String) :
    ((alookup (asetdefault L.channels c []) c).getD [] : Queue Msg)
      = queue_of L c := by
  unfold asetdefault queue_of
  by_cases h : (alookup L.channels c).isSome
  · rw [if_pos h]
  · rw [if_neg h]
    cases h2 : alookup L.channels c with
    | none => rw [alookup_append_single_self L.channels c [] h2]; rfl
    | some q => rw [h2] at h; simp at h

theorem send_invalid {Msg : Type} (now : Int) (c : String) (m : Msg)
    (L : InMemoryChannelLayer Msg) (hv : valid_channel_name false c = false) :
    send now c m L = (L, Except.error LayerError.typeError) := by
  rw [send, if_pos (by rw [hv]; rfl)]

theorem send_preserves_config {Msg : Type} (now : Int) (c : String) (m : Msg)
    (L : InMemoryChannelLayer Msg) :
    (send now c m L).1.capacity = L.capacity
      ∧ (send now c m L).1.expiry = L.expiry := by
  by_cases hv : valid_channel_name false c = true
  · by_cases hfull : L.capacity ≤ (queue_of L c).length
    · rw [send_full now c m L hv hfull]
      exact ⟨rfl, rfl⟩
    · rw [send_ok now c m L hv (not_le.mp hfull)]
      exact ⟨rfl, rfl⟩
  · rw [send_invalid now c m L (Bool.eq_false_iff.mpr hv)]
    exact ⟨rfl, rfl⟩

theorem queue_of_send_other {Msg : Type} (now : Int) (d c : String) (m : Msg)
    (L : InMemoryChannelLayer Msg) (hne : c ≠ d) :
    queue_of (send now d m L).1 c = queue_of L c := by
  by_cases hv : valid_channel_name false d = true
  · by_cases hfull : L.capacity ≤ (queue_of L d).length
    · rw [send_full now d m L hv hfull]
      show (alookup (asetdefault L.channels d []) c).getD [] = _
      rw [alookup_asetdefault_ne L.channels d c [] hne]
      rfl
    · rw [send_ok now d m L hv (not_le.mp hfull)]
      show (alookup (aupdate (asetdefault L.channels d []) d
        (queue_of L d ++ [(now + L.expiry, m)])) c).getD [] = _
      rw [alookup_aupdate_ne _ d c _ hne, alookup_asetdefault_ne L.channels d c [] hne]
      rfl
  · rw [send_invalid now d m L (Bool.eq_false_iff.mpr hv)]

theorem group_send_loop_untouched {Msg : Type} (now : Int) (m : Msg)
    (members : List String) :
    ∀ (L : InMemoryChannelLayer Msg) (c : String), c ∉ members →
      queue_of (group_send_loop now m members L).1 c = queue_of L c := by
  induction members with
  | nil => intro L c _; rfl
  | cons c0 rest ih =>
    intro L c hnot
    have hne : c ≠ c0 := fun h => hnot (h ▸ List.mem_cons_self c0 rest)
    have hrest : c ∉ rest := fun h => hnot (List.mem_cons_of_mem c0 h)
    rw [group_send_loop]
    cases hs : (send now c0 m L).2 with
    | ok u =>
      rw [ih _ c hrest, queue_of_send_other now c0 c m L hne]
    | error e =>
      cases e with
      | typeError => exact queue_of_send_other now c0 c m L hne
      | channelFull ch =>
        rw [ih _ c hrest, queue_of_send_other now c0 c m L hne]

theorem group_send_loop_config {Msg : Type} (now : Int) (m : Msg)
    (members : List String) :
    ∀ L : InMemoryChannelLayer Msg,
      (group_send_loop now m members L).1.capacity = L.capacity
        ∧ (group_send_loop now m members L).1.expiry = L.expiry := by
  induction members with
  | nil => intro L; exact ⟨rfl, rfl⟩
  | cons c0 rest ih =>
    intro L
    rw [group_send_loop]
    cases hs : (send now c0 m L).2 with
    | ok u =>
      refine ⟨?_, ?_⟩
      · rw [(ih _).1, (send_preserves_config now c0 m L).1]
      · rw [(ih _).2, (send_preserves_config now c0 m L).2]
    | error e =>
      cases e with
      | typeError => exact send_preserves_config now c0 m L
      | channelFull ch =>
        refine ⟨?_, ?_⟩
        · rw [(ih _).1, (send_preserves_config now c0 m L).1]
        · rw [(ih _).2, (send_preserves_config now c0 m L).2]

theorem group_send_loop_delivers {Msg : Type} (now : Int) (m : Msg)
    (members : List String) :
    ∀ (L : InMemoryChannelLayer Msg) (c : String), members.Nodup →
      c ∈ members →
      (∀ ch ∈ members, valid_channel_name false ch = true) →
      queue_of (group_send_loop now m members L).1 c
        = (if (queue_of L c).length < L.capacity
           then queue_of L c ++ [(now + L.expiry, m)]
           else queue_of L c) := by
  induction members with
  | nil => intro L c _ hmem _; cases hmem
  | cons c0 rest ih =>
    intro L c hnodup hmem hvalid
    have hv0 : valid_channel_name false c0 = true :=
      hvalid c0 (List.mem_cons_self c0 rest)
    rw [group_send_loop]
    by_cases hc : c = c0
    · subst hc
      have hcrest : c ∉ rest := (List.nodup_cons.mp hnodup).1
      by_cases hfull : L.capacity ≤ (queue_of L c).length
      · rw [show (send now c m L).2 = Except.error (LayerError.channelFull c) from
          by rw [send_full now c m L hv0 hfull]]
        rw [group_send_loop_untouched now m rest _ c hcrest]
        rw [if_neg (not_lt.mpr hfull)]
        rw [show (send now c m L).1
            = { L with channels := asetdefault L.channels c [] } from
          by rw [send_full now c m L hv0 hfull]]
        exact queue_of_asetdefault_self L c
      · rw [show (send now c m L).2 = Except.ok () from
          by rw [send_ok now c m L hv0 (not_le.mp hfull)]]
        rw [group_send_loop_untouched now m rest _ c hcrest]
        rw [if_pos (not_le.mp hfull)]
        exact queue_of_send_ok now c m L hv0 (not_le.mp hfull)
    · have hcin : c ∈ rest := by
        rcases List.mem_cons.mp hmem with h | h
        · exact absurd h hc
        · exact h
      have hvrest : ∀ ch ∈ rest, valid_channel_name false ch = true :=
        fun ch hch => hvalid ch (List.mem_cons_of_mem c0 hch)
      have hstep : ∀ L' : InMemoryChannelLayer Msg,
          L' = (send now c0 m L).1 →
          queue_of (group_send_loop now m rest L').1 c
            = (if (queue_of L c).length < L.capacity
               then queue_of L c ++ [(now + L.expiry, m)]
               else queue_of L c) := by
        intro L' hL'
        rw [ih L' c (List.nodup_cons.mp hnodup).2 hcin hvrest]
        rw [hL', queue_of_send_other now c0 c m L hc,
          (send_preserves_config now c0 m L).1,
          (send_preserves_config now c0 m L).2]
      cases hs : (send now c0 m L).2 with
      | ok u => exact hstep _ rfl
      | error e =>
        cases e with
        | typeError =>
          rcases send_result_ok_or_full now c0 m L hv0 with h | h
          · rw [hs] at h; exact absurd h (by simp)
          · rw [hs] at h; exact absurd h (by simp)
        | channelFull ch => exact hstep _ rfl

/-- C4: `group_send` absorbs any per-member `ChannelFull` and returns
cleanly (given valid member names); it attempts delivery to every current
member — each member below capacity gets the message appended and a member
at capacity keeps its queue unchanged, independently of the other members;
in the add/add/discard scenario it delivers to `c2` only; and a concrete
full member `f` does not prevent delivery to `c2`. -/
theorem group_send_best_effort {Msg : Type}
    (L : InMemoryChannelLayer Msg) (now : Int) (g : String) (m : Msg)
    (hg : valid_group_name g = true)
    (hmem : ∀ ch ∈ ((alookup (clean_expired now L).groups g).getD []).map Prod.fst,
        valid_channel_name false ch = true) :
    ((group_send now g m L).2 = Except.ok ())
    ∧ ((((alookup (clean_expired now L).groups g).getD []).map Prod.fst).Nodup →
        ∀ ch ∈ ((alookup (clean_expired now L).groups g).getD []).map Prod.fst,
          queue_of (group_send now g m L).1 ch
            = (if (queue_of (clean_expired now L) ch).length < L.capacity
               then queue_of (clean_expired now L) ch ++ [(now + L.expiry, m)]
               else queue_of (clean_expired now L) ch))
    ∧ ((group_send 3 "g" (7 : Nat) scenario_add_add_discard).2 = Except.ok ()
        ∧ queue_of (group_send 3 "g" 7 scenario_add_add_discard).1 "c2" = [(63, 7)]
        ∧ queue_of (group_send 3 "g" 7 scenario_add_add_discard).1 "c1" = [])
    ∧ ((group_send 20 "g" (7 : Nat) scenario_full_member).2 = Except.ok ()
        ∧ queue_of (group_send 20 "g" 7 scenario_full_member).1 "c2" = [(80, 7)]
        ∧ queue_of (group_send 20 "g" 7 scenario_full_member).1 "f" = [(100, 0)]) := by
  refine ⟨?_, ?_, by decide, by decide⟩
  · rw [group_send, if_neg (by rw [hg]; simp)]
    exact group_send_loop_ok now m _ _ hmem
  · intro hnodup ch hch
    rw [group_send, if_neg (by rw [hg]; simp)]
    exact group_send_loop_delivers now m _ (clean_expired now L) ch hnodup hch hmem

theorem group_send_best_effort_witness :
    (group_send 20 "g" (7 : Nat) scenario_full_member).2 = Except.ok () :=
  (group_send_best_effort scenario_full_member 20 "g" 7 (by decide) (by decide)).1

/-! ### Claims C5-C8: dispatch, priority preemption and the demultiplexer -/

/-- C5 counterexample: under the default settings (the auto-handler-by-name
flag off), a message of type `"_private.thing"` with a registered handler
for that raw type is dispatched to that handler — no malformed-type error
is raised and a handler is invoked, refuting the claimed rejection. -/
theorem dispatch_leading_underscore_counterexample :
    get_message_handlers
        ({ message_handlers := [("_private.thing", ["on_private"])], attrs := [] })
        false "_private.thing"
      = Except.ok ["on_private"] := by decide

/-- C5 (amended): only when `CHANNELS_AUTO_HANDLER_BY_NAME` is enabled does
dispatch derive a dot-to-underscore handler name, and then a derived name
with a leading underscore is rejected with the malformed-type error before
any handler can be invoked; under the default settings handlers are
resolved from the `msg_handler` registry by the exact raw message type, and
when none is found the unrecoverable "No handler" error is raised. -/
theorem dispatch_handler_resolution (c : AsyncConsumer) (t : String) :
    (((t.data.map (fun ch => if ch = '.' then '_' else ch)).head? = some '_') →
      get_message_handlers c true t
        = Except.error "Malformed type in message (leading underscore)")
    ∧ (get_message_handlers c false t
        = if ((alookup c.message_handlers t).getD []).length < 1
          then Except.error ("No handler for message type " ++ t)
          else Except.ok ((alookup c.message_handlers t).getD [])) := by
  constructor
  · intro hu
    have hg : get_handler_name t
        = Except.error "Malformed type in message (leading underscore)" := by
      rw [get_handler_name, if_pos (by rw [hu]; rfl)]
    simp [get_message_handlers, hg]
  · rfl

theorem dispatch_handler_resolution_witness :
    get_message_handlers ({ message_handlers := [], attrs := [] }) true
        "_private.thing"
      = Except.error "Malformed type in message (leading underscore)" :=
  (dispatch_handler_resolution _ "_private.thing").1 (by decide)

/-- C6: when a priority-typed message is handled while a non-priority
dispatch task is still in flight (and no priority message was seen yet),
the events of `PriorityTaskManager.handle_message` are exactly: cancel the
in-flight task, await it (absorbing the cancellation), and only then invoke
the priority dispatch — the dispatch is the last event, strictly preceded
by both the cancellation and the completed await. -/
theorem priority_preemption_cancels_before_dispatch (st : PriorityTaskManager)
    (t : String)
    (hprio : st.priority_message_types.contains t = true)
    (hopen : st.close_message_received = false)
    (hflight : st.current_task = some TaskStatus.running) :
    ∃ pre, (handle_message st t).2 = pre ++ [DispatchEvent.dispatchMsg t]
      ∧ DispatchEvent.cancelCurrent ∈ pre
      ∧ DispatchEvent.awaitCurrent ∈ pre
      ∧ DispatchEvent.dispatchMsg t ∉ pre := by
  refine ⟨[DispatchEvent.cancelCurrent, DispatchEvent.awaitCurrent],
    ?_, by simp, by simp, by simp⟩
  rw [handle_message, if_neg (by rw [hopen]; simp), if_pos (by rw [hprio]),
    hflight]
  rfl

theorem priority_preemption_cancels_before_dispatch_witness :
    ∃ pre, (handle_message
        { current_task := some TaskStatus.running,
          close_message_received := false,
          priority_message_types := ["websocket.disconnect"] }
        "websocket.disconnect").2
        = pre ++ [DispatchEvent.dispatchMsg "websocket.disconnect"]
      ∧ DispatchEvent.cancelCurrent ∈ pre
      ∧ DispatchEvent.awaitCurrent ∈ pre
      ∧ DispatchEvent.dispatchMsg "websocket.disconnect" ∉ pre :=
  priority_preemption_cancels_before_dispatch _ _ (by decide) rfl rfl

/-- C7 counterexample: one connection's event sequence in which the
outward close is emitted twice.  Two accepted streams close one after the
other: the first close leaves `s2` accepting and emits nothing, the second
emits the outward close and latches `sent_close`; afterwards a child task
failure (`_monitor_task`, not disconnecting) force-closes with code 1011,
emitting a second outward close despite `sent_close` — so "at most once
per connection" fails on the forced path. -/
theorem outward_close_twice_counterexample :
    websocket_close none "s1"
        ({ accepted_upstream_stream := ["s1", "s2"],
           stream_upstream_queues := ["s1", "s2"],
           disconnecting := false, sent_close := false })
      = some ({ accepted_upstream_stream := ["s2"],
                stream_upstream_queues := ["s1", "s2"],
                disconnecting := false, sent_close := false }, [])
    ∧ websocket_close none "s2"
        ({ accepted_upstream_stream := ["s2"],
           stream_upstream_queues := ["s1", "s2"],
           disconnecting := false, sent_close := false })
      = some ({ accepted_upstream_stream := [],
                stream_upstream_queues := ["s1", "s2"],
                disconnecting := false, sent_close := true },
          [MuxEvent.closeSent none])
    ∧ monitor_task "s1" (ChildExit.exc "boom")
        ({ accepted_upstream_stream := [],
           stream_upstream_queues := ["s1", "s2"],
           disconnecting := false, sent_close := true })
      = some ({ accepted_upstream_stream := [],
                stream_upstream_queues := ["s1", "s2"],
                disconnecting := false, sent_close := true },
          [MuxEvent.closeSent (some 1011)], some "boom") := by
  refine ⟨by decide, by decide, by decide⟩

/-- C7 (amended): the non-forced outward close is emitted only when no
stream remains accepting, the close was not already sent, and the
connection is not disconnecting; an emission latches `sent_close`, after
which no further non-forced close is emitted; a top-level disconnect
suppresses (rather than triggers) the guarded close; and a child's close
event that leaves another stream accepting emits nothing.  Only the forced
close of the child-failure path can bypass this guard. -/
theorem outward_close_guard (st : Demultiplexer) (code : Option Int) (s : String) :
    ((mux_close code false st).2 ≠ [] →
      st.accepted_upstream_stream.isEmpty = true ∧ st.sent_close = false
        ∧ st.disconnecting = false)
    ∧ ((mux_close code false st).2 ≠ [] →
        (mux_close code false st).1.sent_close = true)
    ∧ (st.sent_close = true → (mux_close code false st).2 = [])
    ∧ ((mux_close code false (websocket_disconnect st)).2 = [])
    ∧ (∀ st' ev, websocket_close code s st = some (st', ev) →
        st'.accepted_upstream_stream ≠ [] → ev = []) := by
  have guard_case : ∀ u : Demultiplexer,
      (mux_close code false u).2 ≠ [] →
      u.accepted_upstream_stream.isEmpty = true ∧ u.sent_close = false
        ∧ u.disconnecting = false := by
    intro u hne
    by_cases hg : ((!u.accepted_upstream_stream.isEmpty || u.sent_close
        || u.disconnecting) && !false) = true
    · rw [mux_close, if_pos hg] at hne
      exact absurd rfl hne
    · simp only [Bool.and_true, Bool.not_false, Bool.or_eq_true,
        not_or, Bool.not_eq_true] at hg
      obtain ⟨⟨h1, h2⟩, h3⟩ := hg
      exact ⟨by simpa using h1, h2, h3⟩
  refine ⟨guard_case st, ?_, ?_, ?_, ?_⟩
  · intro hne
    by_cases hg : ((!st.accepted_upstream_stream.isEmpty || st.sent_close
        || st.disconnecting) && !false) = true
    · rw [mux_close, if_pos hg] at hne
      exact absurd rfl hne
    · rw [mux_close, if_neg hg]
  · intro hsent
    rw [mux_close, if_pos (by rw [hsent]; simp)]
  · rw [mux_close, if_pos (by simp [websocket_disconnect])]
  · intro st' ev h hne
    by_cases hcont : st.accepted_upstream_stream.contains s = true
    · rw [websocket_close, if_pos hcont] at h
      have hpair := Option.some_inj.mp h
      by_cases hg : ((!(st.accepted_upstream_stream.erase s).isEmpty
          || st.sent_close || st.disconnecting) && !false) = true
      · rw [mux_close, if_pos hg] at hpair
        exact (congrArg Prod.snd hpair).symm
      · rw [mux_close, if_neg hg] at hpair
        simp only [Bool.and_true, Bool.not_false, Bool.or_eq_true, not_or,
          Bool.not_eq_true] at hg
        have hempty : st.accepted_upstream_stream.erase s = [] := by
          have h1 := hg.1.1
          simpa [List.isEmpty_iff] using h1
        exfalso
        apply hne
        have h1 : ({ st with
            accepted_upstream_stream := st.accepted_upstream_stream.erase s,
            sent_close := true } : Demultiplexer) = st' := congrArg Prod.fst hpair
        rw [← h1]
        exact hempty
    · rw [websocket_close, if_neg hcont] at h
      exact absurd h (by simp)

theorem outward_close_guard_witness :
    (mux_close none false
        ({ accepted_upstream_stream := [], stream_upstream_queues := [],
           disconnecting := false, sent_close := true })).2 = [] :=
  (outward_close_guard _ none "s").2.2.1 rfl

/-- C8 counterexample: a child exception arriving while the connection is
already disconnecting is re-raised (`some "boom"`), not swallowed —
`_monitor_task` skips only the force-close in that case but its `raise e`
is unconditional. -/
theorem monitor_reraises_while_disconnecting_counterexample :
    monitor_task "s1" (ChildExit.exc "boom")
        ({ accepted_upstream_stream := [], stream_upstream_queues := ["s1"],
           disconnecting := true, sent_close := false })
      = some ({ accepted_upstream_stream := [], stream_upstream_queues := ["s1"],
                disconnecting := true, sent_close := false }, [], some "boom") := by
  decide

/-- C8 (amended): on a child exception other than `StopConsumer`, if the
connection is not already closing the supervisor force-closes outward with
server-error code 1011 and re-raises the exception; if a close is already
in progress (`disconnecting`) the force-close is skipped but the exception
is still re-raised to the caller. -/
theorem monitor_exception_close_and_reraise (st : Demultiplexer) (s e : String) :
    (st.disconnecting = false →
      monitor_task s (ChildExit.exc e) st
        = some ({ st with sent_close := true },
            [MuxEvent.closeSent (some 1011)], some e))
    ∧ (st.disconnecting = true →
      monitor_task s (ChildExit.exc e) st = some (st, [], some e)) := by
  constructor
  · intro hdisc
    rw [monitor_task, if_pos (by rw [hdisc]; rfl), mux_close, if_neg (by simp)]
  · intro hdisc
    rw [monitor_task, if_neg (by rw [hdisc]; simp)]

theorem monitor_exception_close_and_reraise_witness :
    monitor_task "s1" (ChildExit.exc "boom")
        ({ accepted_upstream_stream := ["s2"], stream_upstream_queues := ["s1", "s2"],
           disconnecting := false, sent_close := false })
      = some ({ accepted_upstream_stream := ["s2"],
                stream_upstream_queues := ["s1", "s2"],
                disconnecting := false, sent_close := true },
          [MuxEvent.closeSent (some 1011)], some "boom") :=
  (monitor_exception_close_and_reraise _ "s1" "boom").1 rfl

end ChannelsSpec
